import Mathlib

/-!
Shallow embedding of the autocxx conversion engine core
(`engine/src/bridge_converter.rs`) and of the move-parameter transfer
protocol (`src/rvalue_param.rs`), together with theorems settling the
frozen claims about them.

Conventions of the embedding:

* Machinery that can fail is modelled in `Res α = Except Failure α`.
  A recoverable `Result::Err(ConvertError)` of the source is
  `Failure.convertErr`; a Rust `panic!` / `unwrap` failure is
  `Failure.panicked msg`; `Failure.diverged` marks that a recursion of
  the source did not terminate within the step budget (`fuel`) given to
  the embedding.  All recursion that is unbounded in the source
  (typedef resolution, the nested namespace walk) is fuel-indexed, so
  every definition is executable.
* Rust `String` identifiers are ASCII, so Lean `String` with
  character-based `startsWith` / `drop` agrees with the byte-based
  slicing of the source.
* Components of the repository that the studied sources only call into
  (`types.rs`, `known_types.rs`, `byvalue_checker.rs`,
  `additional_cpp_generator.rs`, `unqualify.rs`) are modelled from the
  specification; each such definition carries a doc comment starting
  with `Modelled from the spec:`.
-/

/-- The recoverable error enumeration `ConvertError` of
`bridge_converter.rs` (`NoContent`, `UnsafePODType`,
`UnknownForeignItem`). -/
inductive ConvertError where
  | noContent
  | unsafePODType (name : String)
  | unknownForeignItem
deriving DecidableEq, Repr

/-- Failure channel of the embedding: a recoverable `ConvertError`, a
Rust `panic!`-style abort carrying its message, or exhaustion of the
fuel budget (modelling a recursion of the source that does not
terminate). -/
inductive Failure where
  | convertErr (e : ConvertError)
  | panicked (msg : String)
  | diverged
deriving DecidableEq, Repr

/-- Result type for every fallible operation of the embedding. -/
abbrev Res (α : Type) := Except Failure α

instance {ε α : Type} [DecidableEq ε] [DecidableEq α] :
    DecidableEq (Except ε α)
  | .ok a, .ok b => decidable_of_iff (a = b) (by simp)
  | .error a, .error b => decidable_of_iff (a = b) (by simp)
  | .ok _, .error _ => .isFalse (by simp)
  | .error _, .ok _ => .isFalse (by simp)

/-- Namespace of the source `types.rs`: an ordered list of segments.
The root namespace is the empty list. -/
abbrev NamespaceM := List String

/-- Modelled from the spec: `TypeName` of `types.rs` (not among the
studied sources; the Lean name carries an M suffix since the source name is taken) — a qualified name made of a namespace path plus a
local identifier, compared by full path. -/
structure TypeNameM where
  ns : NamespaceM
  ident : String
deriving DecidableEq, Repr

instance : BEq TypeNameM := ⟨fun a b => decide (a = b)⟩

instance : LawfulBEq TypeNameM where
  eq_of_beq h := by simpa [BEq.beq] using h
  rfl := by simp [BEq.beq]

/-- The typedef analysis enumeration `TypedefTarget` of
`bridge_converter.rs`: an alias to a plain name (`NoArguments`), an
alias with generic arguments (`HasArguments`), or an alias to a
non-path type (`SomethingComplex`). -/
inductive TypedefTarget where
  | noArguments (tn : TypeNameM)
  | hasArguments
  | somethingComplex
deriving DecidableEq, Repr

/-- Panic message of the complex-typedef branch of `resolve_typedef`. -/
def resolveComplexMsg : String :=
  "Asked to resolve typedef but it leads to something complex which autocxx cannot yet handle"

/-- The `resolve_typedef` method of `bridge_converter.rs`: follows
`NoArguments` links through the typedef map by unguarded recursion,
returning `none` when the queried name is not a typedef, the terminal
target otherwise, and panicking on `HasArguments`/`SomethingComplex`
targets.  The source recursion has no cycle guard, hence the fuel
index: `Failure.diverged` reports that the recursion did not finish
within `fuel` steps. -/
def resolveTypedef (tds : List (TypeNameM × TypedefTarget)) :
    Nat → TypeNameM → Res (Option TypeNameM)
  | 0, _ => .error .diverged
  | fuel + 1, tn =>
    match tds.lookup tn with
    | none => .ok none
    | some (.noArguments original) =>
      match resolveTypedef tds fuel original with
      | .ok none => .ok (some original)
      | .ok (some further) => .ok (some further)
      | .error e => .error e
    | some .hasArguments => .error (.panicked resolveComplexMsg)
    | some .somethingComplex => .error (.panicked resolveComplexMsg)

/-- Typedef map forming the cycle A ↦ B ↦ A (both in the root
namespace), a legal value of the `typedefs` field of
`BridgeConversion`. -/
def cyclicTypedefs : List (TypeNameM × TypedefTarget) :=
  [(⟨[], "A"⟩, .noArguments ⟨[], "B"⟩),
   (⟨[], "B"⟩, .noArguments ⟨[], "A"⟩)]

theorem resolveTypedef_cyclic_aux :
    ∀ fuel : Nat,
      resolveTypedef cyclicTypedefs fuel ⟨[], "A"⟩ = .error .diverged ∧
      resolveTypedef cyclicTypedefs fuel ⟨[], "B"⟩ = .error .diverged := by
  intro fuel
  induction fuel with
  | zero => exact ⟨rfl, rfl⟩
  | succ n ih =>
    have hlA : cyclicTypedefs.lookup ⟨[], "A"⟩ =
        some (.noArguments ⟨[], "B"⟩) := by decide
    have hlB : cyclicTypedefs.lookup ⟨[], "B"⟩ =
        some (.noArguments ⟨[], "A"⟩) := by decide
    constructor
    · rw [resolveTypedef, hlA]
      dsimp only
      rw [ih.2]
    · rw [resolveTypedef, hlB]
      dsimp only
      rw [ih.1]

/-- C1: `resolve_typedef` is claimed to terminate with a result for
every typedef map and to detect and reject cyclic alias chains.  The
source function recurses with no memoization and no in-progress
marker, so on the two-element cycle A ↦ B ↦ A the query for A never
returns no matter how many steps it is allowed: the recursion diverges
instead of detecting the cycle.  This contradicts the claim and the
spec invariant, exhibiting the code bug. -/
theorem c1_resolve_typedef_cycle_diverges :
    ∀ fuel : Nat,
      resolveTypedef cyclicTypedefs fuel ⟨[], "A"⟩ =
        .error .diverged := by
  intro fuel
  exact (resolveTypedef_cyclic_aux fuel).1

mutual
/-- Model of the subset of `syn::Type` that `convert_type` of
`bridge_converter.rs` distinguishes: a path type (segments, each with
optional generic arguments), a reference, a raw pointer (with its
mutability), and a catch-all for every other `syn::Type` variant,
which the source returns unchanged. -/
inductive RType where
  | path (segs : List (String × List GenArg))
  | ref (isMut : Bool) (elem : RType)
  | ptr (isMut : Bool) (elem : RType)
  | otherTy

/-- Model of `syn::GenericArgument`: a type argument (converted by
`convert_punctuated`) or any other kind of argument (passed through
unchanged). -/
inductive GenArg where
  | tyArg (t : RType)
  | otherArg
end

/-- One path segment: identifier plus generic arguments. -/
abbrev Seg := String × List GenArg

/-- Identifiers of a path, in order. -/
def segNames (segs : List Seg) : List String := segs.map Prod.fst

/-- Modelled from the spec: `TypeName::from_cxx_type_path` of
`types.rs` (not among the studied sources) — builds the qualified
name from the path identifiers, the final segment being the local
identifier. -/
def TypeNameM.from_cxx_type_path (segs : List Seg) : TypeNameM :=
  ⟨(segNames segs).dropLast, ((segNames segs).getLast?).getD ""⟩

/-- Modelled from the spec: `TypeName::from_bindgen_type_path` of
`types.rs` — like `from_cxx_type_path` after stripping the
generator's internal root-module prefix from the front of the path. -/
def TypeNameM.from_bindgen_type_path (segs : List Seg) : TypeNameM :=
  let names := segNames segs
  let names2 := if names.head? = some "root" then names.drop 1 else names
  ⟨names2.dropLast, (names2.getLast?).getD ""⟩

/-- Modelled from the spec: `TypeName::to_cxx_type_path` of
`types.rs` — renders the qualified name back into a path with no
generic arguments. -/
def TypeNameM.to_cxx_type_path (tn : TypeNameM) : List Seg :=
  (tn.ns ++ [tn.ident]).map (fun n => (n, []))

/-- Modelled from the spec: `TypeName` rendering of `types.rs` — the
namespace segments and the identifier joined by the separator, just
the identifier for the root namespace. -/
def TypeNameM.render (tn : TypeNameM) : String :=
  if tn.ns.isEmpty then tn.ident
  else String.intercalate "::" tn.ns ++ "::" ++ tn.ident

/-- Modelled from the spec: the well-known-type table of
`known_types.rs` behind `replace_type_path_without_arguments` —
replaces well-known foreign standard-library type spellings with
their bridge-layer equivalents, leaving every other name unchanged. -/
def replaceKnownTypeNames (names : List String) : List String :=
  if names = ["std", "unique_ptr"] then ["UniquePtr"]
  else if names = ["std", "string"] then ["CxxString"]
  else names

/-- Modelled from the spec: `replace_type_path_without_arguments` of
`known_types.rs` — rewrites the path identifiers through the
well-known-type table, stripping any generic arguments (the caller
restores the saved final-segment arguments afterwards). -/
def replace_type_path_without_arguments (segs : List Seg) : List Seg :=
  (replaceKnownTypeNames (segNames segs)).map (fun n => (n, []))

/-- Modelled from the spec: `should_dereference_in_cpp` of
`known_types.rs` — true exactly for the raw by-value foreign string
view type, which must be rewritten as a borrowed string slice. -/
def should_dereference_in_cpp (segs : List Seg) : Bool :=
  segNames segs = ["rust", "Str"]

/-- Panic message of a failed `Option::unwrap()`. -/
def unwrapNoneMsg : String := "called Option::unwrap() on a None value"

/-- Panic message of `replace_cpp_with_cxx` for generic arguments on a
non-final path segment. -/
def nonFinalArgsMsg : String :=
  "Found a type with path arguments not on the last segment"

/-- True iff some segment other than the last carries generic
arguments (the fail-fast input-shape check of `replace_cpp_with_cxx`). -/
def hasNonFinalArgs : List Seg → Bool
  | [] => false
  | [_] => false
  | s :: rest => not s.2.isEmpty || hasNonFinalArgs rest

/-- Generic arguments of the final segment, when non-empty (the
`last_seg_args` capture of `replace_cpp_with_cxx`). -/
def lastSegArgs (segs : List Seg) : Option (List GenArg) :=
  match segs.getLast? with
  | some (_, args) => if args.isEmpty then none else some args
  | none => none

/-- Puts saved generic arguments back onto the final segment (the
`last_seg.arguments = last_seg_args` restoration of
`replace_cpp_with_cxx`). -/
def setLastArgs (args : List GenArg) : List Seg → List Seg
  | [] => []
  | [(n, _)] => [(n, args)]
  | s :: rest => s :: setLastArgs args rest

/-- Model of `syn::Pat` as far as the source inspects it: an
identifier pattern or anything else. -/
inductive Pat where
  | ident (name : String)
  | wildPat
deriving DecidableEq, Repr

/-- Model of `syn::FnArg`: a typed argument `pat: ty`, or a receiver
(`self`), which `convert_fn_arg` does not handle and panics on. -/
inductive FnArgM where
  | typed (pat : Pat) (ty : RType)
  | receiver

/-- Modelled from the spec: `ArgumentConversion` of
`additional_cpp_generator.rs` (not among the studied sources) —
describes how one value crosses the boundary: unchanged, boxed into a
uniquely-owned handle, or unboxed from one; it carries both the raw
and the handle-based type representation. -/
inductive ArgumentConversion where
  | unconverted (ty : RType)
  | fromUniquePtr (ty : RType)
  | toUniquePtr (ty : RType)

/-- Modelled from the spec: `ArgumentConversion::work_needed` — true
unless the value crosses unconverted. -/
def ArgumentConversion.work_needed : ArgumentConversion → Bool
  | .unconverted _ => false
  | .fromUniquePtr _ => true
  | .toUniquePtr _ => true

/-- The uniquely-owned handle type to `t`. -/
def uniquePtrOf (t : RType) : RType :=
  .path [("cxx", []), ("UniquePtr", [.tyArg t])]

/-- Modelled from the spec: `ArgumentConversion::unconverted_rust_type`
— the raw type representation. -/
def ArgumentConversion.unconverted_rust_type : ArgumentConversion → RType
  | .unconverted ty => ty
  | .fromUniquePtr ty => ty
  | .toUniquePtr ty => ty

/-- Modelled from the spec: `ArgumentConversion::converted_rust_type`
— the handle-based representation for converted positions, the raw
type otherwise. -/
def ArgumentConversion.converted_rust_type : ArgumentConversion → RType
  | .unconverted ty => ty
  | .fromUniquePtr ty => uniquePtrOf ty
  | .toUniquePtr ty => uniquePtrOf ty

/-- The `ArgumentAnalysis` record of `bridge_converter.rs`: the
conversion decision, the (possibly renamed) parameter pattern, and
whether the parameter was the receiver. -/
structure ArgumentAnalysis where
  conversion : ArgumentConversion
  name : Pat
  was_self : Bool

/-- The `AdditionalNeed` enumeration of `additional_cpp_generator.rs`
as used by `bridge_converter.rs`: the string-constructor helper, an
allocation factory (`MakeUnique`) for a constructor, or a by-value
wrapper shim; the `ByValueWrapper` payload is inlined (target
identifier, return conversion, argument conversions, method flag). -/
inductive AdditionalNeed where
  | makeStringConstructor
  | makeUnique (ty : TypeNameM) (constructorArgTypes : List TypeNameM)
  | byValueWrapper (id : String) (returnConversion : Option ArgumentConversion)
      (argumentConversion : List ArgumentConversion) (is_a_method : Bool)

/-- A function declaration inside a bindgen `extern "C"` block
(`syn::ForeignItemFn` as far as the source reads it): flat name,
arguments, and declared return type (`none` models
`ReturnType::Default`). -/
structure ForeignItemFn where
  name : String
  inputs : List FnArgM
  output : Option RType

/-- An item of a bindgen `extern "C"` block: a function, or any other
foreign-item kind (which `convert_foreign_mod_items` rejects with
`UnknownForeignItem`). -/
inductive ForeignItemIn where
  | fnItem (f : ForeignItemFn)
  | otherItem

/-- An entry pushed onto `extern_c_mod_items` by the converter: the
generated `cxx::bridge` fn declaration (with optional namespace and
rust_name attributes), the verbatim type alias of
`generate_type_alias`, the allocation-factory declaration of
`convert_new_method`, or an include directive. -/
inductive ForeignItemOut where
  | fnOut (namespaceAttr : Option String) (rustNameAttr : Option String)
      (name : String) (params : List (Pat × RType)) (ret : Option RType)
  | typeAliasOut (tn : TypeNameM) (pod : Bool)
  | makeUniqueFnOut (callName : String) (args : List FnArgM) (selfTy : RType)
  | includeDir (header : String)

/-- An entry pushed onto the converter's `all_items` accumulator by
`convert_mod_items`: a `const` item moved to the top level, or the
`ExternType` impl of `generate_type_alias`. -/
inductive TopItemM where
  | constTop (tag : String)
  | externTypeTop (tn : TypeNameM) (pod : Bool)
deriving DecidableEq, Repr

/-- The `Use` record of `namespace_organizer.rs` as filled by
`add_use`: namespace plus identifier made visible there. -/
structure UseM where
  ns : NamespaceM
  id : String
deriving DecidableEq, Repr

/-- Body of an impl method after the rewrite of `convert_new_method`:
either the original block or the synthesized call into the generated
factory function. -/
inductive MethodBody where
  | original
  | callsFactory (callName : String) (argNames : List String)
deriving DecidableEq, Repr

/-- Model of `syn::ImplItemMethod` as far as the source reads and
rewrites it: name, arguments, declared return type, unsafety, body. -/
structure ImplItemMethod where
  name : String
  inputs : List FnArgM
  output : Option RType
  isUnsafe : Bool
  body : MethodBody

/-- An item of an impl block: a method, or any other impl-item kind
(skipped by the constructor scan of `convert_mod_items`). -/
inductive ImplItem where
  | method (m : ImplItemMethod)
  | otherImplItem

/-- Model of `syn::ItemImpl` as far as the source reads it: the self
type and the contained items (the unsafety flag is cleared on the
rewritten output). -/
structure ItemImpl where
  selfTy : RType
  items : List ImplItem
  isUnsafe : Bool

/-- Model of `syn::Item` restricted to the kinds distinguished by
`convert_mod_items`: an extern block, a struct, an enum, an impl, a
nested module (with optional content), a use, a const, a type alias
(with a flag recording whether it has generic parameters, the
condition of `should_ignore_item_type`), and a catch-all for every
other item kind, which the walk silently drops.  For an output
struct item the flag records whether its fields were replaced by the
opaque placeholder. -/
inductive ItemM where
  | foreignMod (items : List ForeignItemIn)
  | structI (name : String) (fieldsReplaced : Bool)
  | enumI (name : String)
  | implI (i : ItemImpl)
  | modI (name : String) (content : Option (List ItemM))
  | useI
  | constI (tag : String)
  | typeI (name : String) (hasGenerics : Bool) (ty : RType)
  | otherI

/-- The mutable fields of the `BridgeConversion` operation that the
embedded functions read or write, together with the classification
data.  `podTypes` stands for the finalized `ByValueChecker`
classification (Modelled from the spec: a type is Trivial iff it is
in this list). -/
structure ConvState where
  typesFound : List String
  externCModItems : List ForeignItemOut
  additionalCppNeeds : List AdditionalNeed
  finalUses : List UseM
  typedefs : List (TypeNameM × TypedefTarget)
  allItems : List TopItemM
  bridgeItems : List String
  externCModCaptured : Bool
  podTypes : List TypeNameM

/-- The `add_use` method: records a namespace emission. -/
def addUse (s : ConvState) (ns : NamespaceM) (id : String) : ConvState :=
  { s with finalUses := s.finalUses ++ [⟨ns, id⟩] }

/-- Modelled from the spec: `ByValueChecker::is_pod` of
`byvalue_checker.rs` (not among the studied sources) — consults the
finalized Trivial/Opaque classification. -/
def isPod (s : ConvState) (tn : TypeNameM) : Bool :=
  s.podTypes.contains tn

mutual
/-- The `convert_type` method of `bridge_converter.rs`: path types go
through `convert_type_path` (with the borrowed-string-slice special
case), references convert their element, raw pointers are lowered by
`convert_ptr_to_reference`, and every other type is returned
unchanged.  Fuel-indexed because path conversion reaches the
unguarded `resolve_typedef` recursion. -/
def convertType : Nat → ConvState → RType → Res RType
  | 0, _, _ => .error .diverged
  | fuel + 1, s, ty =>
    match ty with
    | .path segs =>
      match convert_type_path fuel s segs with
      | .error e => .error e
      | .ok newp =>
        if should_dereference_in_cpp newp then .ok (.ref false (.path [("str", [])]))
        else .ok (.path newp)
    | .ref m e =>
      match convertType fuel s e with
      | .error err => .error err
      | .ok e2 => .ok (.ref m e2)
    | .ptr m e => convert_ptr_to_reference fuel s m e
    | .otherTy => .ok .otherTy

/-- The `convert_ptr_to_reference` method: a raw pointer of mutability
M to element E becomes a reference of mutability M to the converted
element. -/
def convert_ptr_to_reference : Nat → ConvState → Bool → RType → Res RType
  | 0, _, _, _ => .error .diverged
  | fuel + 1, s, isMut, elem =>
    match convertType fuel s elem with
    | .error e => .error e
    | .ok e2 => .ok (.ref isMut e2)

/-- The `convert_type_path` method: unwraps the first segment (panic
on an empty path), strips the `root` prefix converting the remaining
segments' generic arguments, then applies `replace_cpp_with_cxx`. -/
def convert_type_path : Nat → ConvState → List Seg → Res (List Seg)
  | 0, _, _ => .error .diverged
  | fuel + 1, s, segs =>
    match segs.head? with
    | none => .error (.panicked unwrapNoneMsg)
    | some first =>
      match (if first.1 = "root"
             then convert_segs_args fuel s (segs.drop 1)
             else .ok segs) with
      | .error e => .error e
      | .ok segs2 => replace_cpp_with_cxx fuel s segs2

/-- The per-segment argument conversion of the `root`-stripping branch
of `convert_type_path`. -/
def convert_segs_args : Nat → ConvState → List Seg → Res (List Seg)
  | 0, _, _ => .error .diverged
  | _ + 1, _, [] => .ok []
  | fuel + 1, s, (n, args) :: rest =>
    match convert_punctuated fuel s args with
    | .error e => .error e
    | .ok args2 =>
      match convert_segs_args fuel s rest with
      | .error e => .error e
      | .ok rest2 => .ok ((n, args2) :: rest2)

/-- The `convert_punctuated` method: converts type generic arguments,
passing every other generic argument through unchanged. -/
def convert_punctuated : Nat → ConvState → List GenArg → Res (List GenArg)
  | 0, _, _ => .error .diverged
  | _ + 1, _, [] => .ok []
  | fuel + 1, s, arg :: rest =>
    match (match arg with
           | .tyArg t =>
             match convertType fuel s t with
             | .error e => .error e
             | .ok t2 => .ok (GenArg.tyArg t2)
           | .otherArg => .ok GenArg.otherArg : Res GenArg) with
    | .error e => .error e
    | .ok a2 =>
      match convert_punctuated fuel s rest with
      | .error e => .error e
      | .ok rest2 => .ok (a2 :: rest2)

/-- The `replace_cpp_with_cxx` method: fail-fast on generic arguments
placed on a non-final segment, save the final segment's arguments,
substitute a resolved typedef target for the whole path, rewrite
well-known type spellings, and restore the saved arguments. -/
def replace_cpp_with_cxx : Nat → ConvState → List Seg → Res (List Seg)
  | 0, _, _ => .error .diverged
  | fuel + 1, s, segs =>
    if hasNonFinalArgs segs then .error (.panicked nonFinalArgsMsg)
    else
      match resolveTypedef s.typedefs fuel (TypeNameM.from_cxx_type_path segs) with
      | .error e => .error e
      | .ok resolved =>
        let segs2 := match resolved with
          | some newid => newid.to_cxx_type_path
          | none => segs
        let segs3 := replace_type_path_without_arguments segs2
        .ok (match lastSegArgs segs with
             | some args => setLastArgs args segs3
             | none => segs3)
end

/-- The `convert_boxed_type` method (the `Box` wrapper of the source
is invisible in the embedding). -/
def convert_boxed_type (fuel : Nat) (s : ConvState) (t : RType) : Res RType :=
  convertType fuel s t

/-- The `conversion_required` method: a path type crossing by value is
unconverted when Trivial, unboxed from a uniquely-owned handle when
Opaque; every non-path type crosses unconverted. -/
def conversion_required (s : ConvState) (ty : RType) : ArgumentConversion :=
  match ty with
  | .path segs =>
    if isPod s (TypeNameM.from_cxx_type_path segs)
    then .unconverted (.path segs)
    else .fromUniquePtr (.path segs)
  | t => .unconverted t

/-- The `requires_conversion` method: true exactly for a non-Trivial
path type. -/
def requires_conversion (s : ConvState) (ty : RType) : Bool :=
  match ty with
  | .path segs => not (isPod s (TypeNameM.from_cxx_type_path segs))
  | _ => false

/-- The `convert_return_type` method: a defaulted return type needs no
conversion; otherwise convert the type and pair it with a to-handle
conversion when it is non-Trivial. -/
def convert_return_type (fuel : Nat) (s : ConvState) :
    Option RType → Res (Option RType × Option ArgumentConversion)
  | none => .ok (none, none)
  | some t =>
    match convert_boxed_type fuel s t with
    | .error e => .error e
    | .ok t2 =>
      let conversion := if requires_conversion s t2
        then ArgumentConversion.toUniquePtr t2
        else ArgumentConversion.unconverted t2
      .ok (some t2, some conversion)

/-- Panic message of the receiver branch of `convert_fn_arg`. -/
def receiverMsg : String := "FnArg::Receiver not yet handled"

/-- The `convert_fn_arg` method: renames a `this` identifier pattern
to `self` and marks the argument as the receiver, converts the
declared type, and computes the required conversion; a
`FnArg::Receiver` argument panics. -/
def convert_fn_arg (fuel : Nat) (s : ConvState) :
    FnArgM → Res ((Pat × RType) × ArgumentAnalysis)
  | .typed pat ty =>
    let foundThisPat : Bool × Pat :=
      match pat with
      | .ident n => if n = "this" then (true, .ident "self") else (false, .ident n)
      | p => (false, p)
    match convert_boxed_type fuel s ty with
    | .error e => .error e
    | .ok newTy =>
      .ok ((foundThisPat.2, newTy),
           ⟨conversion_required s newTy, foundThisPat.2, foundThisPat.1⟩)
  | .receiver => .error (.panicked receiverMsg)

/-- Sequencing of `convert_fn_arg` over the whole parameter list (the
`map`/`unzip` of `convert_foreign_fn`; in the source a panic of any
element aborts the run, which the error propagation models). -/
def convertFnArgs (fuel : Nat) (s : ConvState) :
    List FnArgM → Res (List ((Pat × RType) × ArgumentAnalysis))
  | [] => .ok []
  | a :: rest =>
    match convert_fn_arg fuel s a with
    | .error e => .error e
    | .ok r =>
      match convertFnArgs fuel s rest with
      | .error e => .error e
      | .ok rs => .ok (r :: rs)

/-- The constructor-pattern flat name for a seen type. -/
def ctorName (ty : String) : String := ty ++ "_" ++ ty

/-- The destructor-pattern flat name for a seen type. -/
def dtorName (ty : String) : String := ty ++ "_" ++ ty ++ "_destructor"

/-- Panic message of an out-of-range string slice. -/
def sliceOutOfRangeMsg : String := "byte index out of bounds of string slice"

/-- The `starts_with` test of the source on identifier strings
(bindgen identifiers are ASCII, so the character-level prefix test
agrees with the byte-level one). -/
def startsWithM (s p : String) : Bool := p.data.isPrefixOf s.data

/-- The class-name-stripping loop of `convert_foreign_fn`: the first
previously-seen type identifier that is a prefix of the flat name is
stripped together with one further character; mirroring the byte
slice `rust_name[cn.len() + 1..]` of the source, the slice panics
when the flat name is shorter than the prefix length plus one (i.e.
equals the matched type identifier). -/
def strip_class_name (typesFound : List String) (rust_name : String) : Res String :=
  match typesFound.find? (fun cn => startsWithM rust_name cn) with
  | none => .ok rust_name
  | some cn =>
    if rust_name.length < cn.length + 1
    then .error (.panicked sliceOutOfRangeMsg)
    else .ok (rust_name.drop (cn.length + 1))

/-- Modelled from the spec: `unqualify_params` and `unqualify_ret_type`
of `unqualify.rs` (not among the studied sources) — user-declared
fully-qualified path types are unqualified down to their final
segment. -/
def unqualifyType : RType → RType
  | .path segs =>
    match segs.getLast? with
    | some lastSeg => .path [lastSeg]
    | none => .path []
  | t => t

/-- Modelled from the spec: `unqualify_params` — each parameter type
unqualified. -/
def unqualify_params (params : List (Pat × RType)) : List (Pat × RType) :=
  params.map (fun p => (p.1, unqualifyType p.2))

/-- Modelled from the spec: `unqualify_ret_type` — the return type
unqualified. -/
def unqualify_ret_type (ret : Option RType) : Option RType :=
  ret.map unqualifyType

/-- The shared emission tail of `convert_foreign_fn`: unqualify the
parameter and return types, build the namespace attribute, push the
`cxx::bridge` fn declaration, and record a namespace emission unless
the declaration is a method with no wrapper. -/
def emitForeignFn (s : ConvState) (ns : NamespaceM) (rustNameAttr : Option String)
    (cxxbridgeName : String) (params : List (Pat × RType)) (ret : Option RType)
    (rustName : String) (isAMethod : Bool) (wrapperNeeded : Bool) : ConvState :=
  let params2 := unqualify_params params
  let ret2 := unqualify_ret_type ret
  let nsAttr : Option String :=
    if ns.isEmpty then none else some (String.intercalate "::" ns)
  let s2 := { s with externCModItems :=
    s.externCModItems ++ [.fnOut nsAttr rustNameAttr cxxbridgeName params2 ret2] }
  if (not isAMethod) || wrapperNeeded then addUse s2 ns rustName else s2

/-- The `convert_foreign_fn` method of `bridge_converter.rs`:
constructor- and destructor-pattern functions are skipped outright;
otherwise the parameters are analyzed, the class-name prefix is
stripped from a method's flat name, the return type is converted, and
— when any parameter or the return needs conversion — exactly one
`ByValueWrapper` additional need is recorded, the emitted declaration
is retargeted to the `_up_wrapper` name, parameters are replaced by
their converted forms (the receiver renamed `autocxx_gen_this`), and
a `rust_name` alias attribute keeps the visible name unchanged. -/
def convert_foreign_fn (fuel : Nat) (s : ConvState) (f : ForeignItemFn)
    (ns : NamespaceM) : Res ConvState :=
  if s.typesFound.any (fun ty => f.name = ctorName ty || f.name = dtorName ty)
  then .ok s
  else
    match convertFnArgs fuel s f.inputs with
    | .error e => .error e
    | .ok analyzed =>
      let params := analyzed.map Prod.fst
      let param_details := analyzed.map Prod.snd
      let is_a_method := param_details.any (fun b => b.was_self)
      match (if is_a_method
             then strip_class_name s.typesFound f.name
             else .ok f.name) with
      | .error e => .error e
      | .ok rust_name =>
        match convert_return_type fuel s f.output with
        | .error e => .error e
        | .ok (ret_type, ret_type_conversion) =>
          let param_conversion_needed :=
            param_details.any (fun b => b.conversion.work_needed)
          let ret_type_conversion_needed :=
            ret_type_conversion.elim false (fun x => x.work_needed)
          let wrapper_function_needed :=
            param_conversion_needed || ret_type_conversion_needed
          if wrapper_function_needed then
            let need := AdditionalNeed.byValueWrapper rust_name
              ret_type_conversion
              (param_details.map (fun d => d.conversion)) is_a_method
            let s1 := { s with additionalCppNeeds := s.additionalCppNeeds ++ [need] }
            let newRet : Option RType :=
              match ret_type_conversion with
              | some conversion => some conversion.unconverted_rust_type
              | none => ret_type
            let newParams := param_details.map (fun pd =>
              ((if pd.was_self then Pat.ident "autocxx_gen_this" else pd.name),
               pd.conversion.converted_rust_type))
            .ok (emitForeignFn s1 ns (some rust_name)
              (rust_name ++ "_up_wrapper") newParams newRet rust_name
              is_a_method true)
          else
            .ok (emitForeignFn s ns none rust_name params ret_type rust_name
              is_a_method false)

/-- The `convert_foreign_mod_items` method: processes each foreign
item in order; a function goes through `convert_foreign_fn`, anything
else aborts with `UnknownForeignItem`. -/
def convert_foreign_mod_items : Nat → ConvState → List ForeignItemIn →
    NamespaceM → Res ConvState
  | 0, _, _, _ => .error .diverged
  | _ + 1, s, [], _ => .ok s
  | fuel + 1, s, i :: rest, ns =>
    match i with
    | .fnItem f =>
      match convert_foreign_fn fuel s f ns with
      | .error e => .error e
      | .ok s2 => convert_foreign_mod_items fuel s2 rest ns
    | .otherItem => .error (.convertErr .unknownForeignItem)

/-- The `generate_type_alias` method (always returns `Ok` in the
source): pushes the verbatim alias onto the extern items, the
`impl UniquePtr` marker onto the bridge items, the `ExternType` impl
(with its Trivial/Opaque kind) onto `all_items`, records a namespace
emission, and registers the identifier among the seen types. -/
def generate_type_alias (s : ConvState) (tyname : TypeNameM)
    (should_be_pod : Bool) : ConvState :=
  let finalIdent := tyname.ident
  let s1 := { s with externCModItems :=
    s.externCModItems ++ [ForeignItemOut.typeAliasOut tyname should_be_pod] }
  let s2 := { s1 with bridgeItems := s1.bridgeItems ++ [finalIdent] }
  let s3 := { s2 with allItems :=
    s2.allItems ++ [TopItemM.externTypeTop tyname should_be_pod] }
  let s4 := addUse s3 tyname.ns finalIdent
  { s4 with typesFound := s4.typesFound ++ [finalIdent] }

/-- The `type_to_typename` helper: a path type yields its bindgen
qualified name, anything else yields nothing. -/
def type_to_typename : RType → Option TypeNameM
  | .path segs => some (TypeNameM.from_bindgen_type_path segs)
  | _ => none

/-- The `analyze_typedef_target` method: a path whose final segment
has no generic arguments is a plain alias, a path with arguments is
`HasArguments`, and any other type is `SomethingComplex`.  (A path
with no segments cannot arise from parsed bindgen output; the
source's `last().unwrap()` would abort there.) -/
def analyze_typedef_target : RType → TypedefTarget
  | .path segs =>
    match segs.getLast? with
    | some seg =>
      if seg.2.isEmpty
      then .noArguments (TypeNameM.from_bindgen_type_path segs)
      else .hasArguments
    | none => .somethingComplex
  | _ => .somethingComplex

/-- The constructor-argument extraction of `convert_new_method`: typed
arguments with an identifier pattern and a path type, as
(type name, argument name) pairs; the receiver and exotic patterns
are dropped. -/
def cppConstructorArgs (inputs : List FnArgM) : List (TypeNameM × String) :=
  inputs.filterMap (fun a =>
    match a with
    | .typed (Pat.ident n) t => (type_to_typename t).map (fun tn => (tn, n))
    | _ => none)

/-- The `convert_new_method` method of `bridge_converter.rs`: when the
`new` method has a declared return type, record a `MakeUnique`
additional need, declare the generated `{type}_make_unique` factory in
the extern block, record its namespace emission, and emit a single
rewritten impl whose only method keeps the declared parameter list,
is renamed `make_unique`, has its body replaced by a call to the
factory, loses its unsafety, and returns a uniquely-owned handle to
the original return type.  A `new` method with a defaulted return
type emits nothing at all. -/
def convert_new_method (s : ConvState) (m : ImplItemMethod) (ty : TypeNameM)
    (i : ItemImpl) : ConvState × List ItemM :=
  match m.output with
  | none => (s, [])
  | some oldReturnType =>
    let args := cppConstructorArgs m.inputs
    let cppArgTypes := args.map Prod.fst
    let cppArgNames := args.map Prod.snd
    let s1 := { s with additionalCppNeeds :=
      s.additionalCppNeeds ++ [.makeUnique ty cppArgTypes] }
    let callName := ty.render ++ "_make_unique"
    let s2 := addUse s1 ty.ns callName
    let s3 := { s2 with externCModItems :=
      s2.externCModItems ++ [.makeUniqueFnOut callName m.inputs i.selfTy] }
    let m2 : ImplItemMethod :=
      { name := "make_unique",
        inputs := m.inputs,
        output := some (uniquePtrOf oldReturnType),
        isUnsafe := false,
        body := .callsFactory callName cppArgNames }
    (s3, [.implI { selfTy := i.selfTy, items := [.method m2], isUnsafe := false }])

/-- The constructor scan of the `Item::Impl` branch of
`convert_mod_items`: every contained method named `new` goes through
`convert_new_method`; other impl items are ignored. -/
def convert_impl_items (s : ConvState) (ty : TypeNameM) (i : ItemImpl) :
    List ImplItem → ConvState × List ItemM
  | [] => (s, [])
  | .method m :: rest =>
    if m.name = "new" then
      let r1 := convert_new_method s m ty i
      let r2 := convert_impl_items r1.1 ty i rest
      (r2.1, r1.2 ++ r2.2)
    else convert_impl_items s ty i rest
  | .otherImplItem :: rest => convert_impl_items s ty i rest

mutual
/-- One step of `convert_mod_items` for a single item, returning the
updated conversion state and the items pushed onto the enclosing
output module.  Extern blocks are funnelled into
`convert_foreign_mod_items` (the first one being captured as the
skeleton `extern "C"` mod); structs and enums register type aliases
(a non-Trivial struct gets its fields replaced by the opaque
placeholder); impls are scanned for constructors; nested modules
recurse with the namespace extended; use items pass through; const
items are moved to the top-level `all_items`; generic type aliases
are skipped while plain ones are recorded in the typedef map and
passed through; every other item kind is silently dropped. -/
def convert_mod_item : Nat → ConvState → NamespaceM → ItemM →
    Res (ConvState × List ItemM)
  | 0, _, _, _ => .error .diverged
  | fuel + 1, s, ns, item =>
    match item with
    | .foreignMod fitems =>
      let s1 := if s.externCModCaptured then s
                else { s with externCModCaptured := true }
      match convert_foreign_mod_items fuel s1 fitems ns with
      | .error e => .error e
      | .ok s2 => .ok (s2, [])
    | .structI name _ =>
      let tyname : TypeNameM := ⟨ns, name⟩
      let should_be_pod := isPod s tyname
      .ok (generate_type_alias s tyname should_be_pod,
           [.structI name (not should_be_pod)])
    | .enumI name =>
      .ok (generate_type_alias s ⟨ns, name⟩ true, [.enumI name])
    | .implI i =>
      match type_to_typename i.selfTy with
      | some ty => .ok (convert_impl_items s ty i i.items)
      | none => .ok (s, [])
    | .modI name content =>
      match content with
      | some citems =>
        match convert_mod_items fuel s (ns ++ [name]) citems with
        | .error e => .error e
        | .ok r => .ok (r.1, [.modI name (some r.2)])
      | none => .ok (s, [.modI name none])
    | .useI => .ok (s, [.useI])
    | .constI tag =>
      .ok ({ s with allItems := s.allItems ++ [.constTop tag] }, [])
    | .typeI name hasGenerics ty =>
      if hasGenerics then .ok (s, [])
      else
        let tyname : TypeNameM := ⟨ns, name⟩
        let target := analyze_typedef_target ty
        .ok ({ s with typedefs := (tyname, target) :: s.typedefs },
             [.typeI name hasGenerics ty])
    | .otherI => .ok (s, [])

/-- The `convert_mod_items` method: processes the items of one module
in order, concatenating the per-item outputs. -/
def convert_mod_items : Nat → ConvState → NamespaceM → List ItemM →
    Res (ConvState × List ItemM)
  | 0, _, _, _ => .error .diverged
  | _ + 1, s, _, [] => .ok (s, [])
  | fuel + 1, s, ns, item :: rest =>
    match convert_mod_item fuel s ns item with
    | .error e => .error e
    | .ok r1 =>
      match convert_mod_items fuel r1.1 ns rest with
      | .error e => .error e
      | .ok r2 => .ok (r2.1, r1.2 ++ r2.2)
end

/-- Model of `cxx::UniquePtr<T>`: either NULL or an owning pointer to
some address. -/
abbrev UniquePtrM := Option Nat

/-- Panic message of the `expect` in the `UniquePtr` implementation of
`RValueParam::get_ptr` (`rvalue_param.rs`). -/
def nullUniquePtrMsg : String := "Passed a NULL UniquePtr as a C++ value parameter"

/-- The `RValueParam::get_ptr` implementation for `UniquePtr<T>` of
`rvalue_param.rs`: dereferences the stored handle, panicking with an
explicit message when it is NULL, otherwise yielding the raw pointer
to the owned value. -/
def uniquePtrGetPtr (stack : UniquePtrM) : Res Nat :=
  match stack with
  | none => .error (.panicked nullUniquePtrMsg)
  | some addr => .ok addr

/-- The `RValueParam::populate_stack_space` implementation for
`UniquePtr<T>`: stores the consumed handle into the pinned stack
slot. -/
def uniquePtrPopulateStackSpace (self : UniquePtrM)
    (_stack : Option UniquePtrM) : Option UniquePtrM :=
  some self

/-- The `RValueParamHandler` state of `rvalue_param.rs`: `space` is
`None` until `populate` is called, then holds the stack storage (for
the `UniquePtr` strategy, the handle itself). -/
structure RValueParamHandler where
  space : Option UniquePtrM

/-- The `Default` impl of `RValueParamHandler`: empty storage. -/
def RValueParamHandler.defaultHandler : RValueParamHandler := ⟨none⟩

/-- The `populate` method: delegates to `populate_stack_space`, which
fills the storage slot with the consumed parameter. -/
def RValueParamHandler.populate (h : RValueParamHandler)
    (param : UniquePtrM) : RValueParamHandler :=
  ⟨uniquePtrPopulateStackSpace param h.space⟩

/-- The `get_ptr` method of `RValueParamHandler`: unwraps the storage
slot (an unwrap-style panic when `populate` has not run) and asks the
stored value for its pointer. -/
def RValueParamHandler.get_ptr (h : RValueParamHandler) : Res Nat :=
  match h.space with
  | none => .error (.panicked unwrapNoneMsg)
  | some stack => uniquePtrGetPtr stack

/-- Empty conversion state: fresh run, nothing classified Trivial. -/
def emptyState : ConvState := ⟨[], [], [], [], [], [], [], false, []⟩

/-- C8: for the move-parameter handler, `get_ptr` before `populate`
fails with the unwrap-style panic instead of returning a pointer;
populating with a NULL owned handle makes `get_ptr` fail with the
explicit NULL-UniquePtr message, never yielding a dangling pointer;
and a populated non-NULL handle yields the owned address. -/
theorem c8_rvalue_param_protocol :
    RValueParamHandler.defaultHandler.get_ptr =
      .error (.panicked unwrapNoneMsg) ∧
    (∀ h : RValueParamHandler,
      (h.populate none).get_ptr = .error (.panicked nullUniquePtrMsg)) ∧
    (∀ (h : RValueParamHandler) (addr : Nat),
      (h.populate (some addr)).get_ptr = .ok addr) :=
  ⟨rfl, fun _ => rfl, fun _ _ => rfl⟩

/-- C10: an item of a kind the namespace walk does not handle is
silently dropped — the state is unchanged, nothing is emitted, and no
error arises — while an unrecognized declaration inside a
foreign-function block is reported as the `UnknownForeignItem`
error. -/
theorem c10_unhandled_item_silently_dropped :
    (∀ (fuel : Nat) (s : ConvState) (ns : NamespaceM),
      convert_mod_item (fuel + 1) s ns .otherI = .ok (s, [])) ∧
    (∀ (fuel : Nat) (s : ConvState) (rest : List ForeignItemIn)
        (ns : NamespaceM),
      convert_foreign_mod_items (fuel + 1) s (.otherItem :: rest) ns =
        .error (.convertErr .unknownForeignItem)) :=
  ⟨fun _ _ _ => rfl, fun _ _ _ _ => rfl⟩

/-- C5: a raw pointer of mutability M to element E is lowered to a
reference of mutability M to the converted element, both in parameter
position (`convert_fn_arg` via `convert_type`) and for a pointer
return type (`convert_return_type`), where the lowered reference then
needs no by-value conversion. -/
theorem c5_pointer_lowered_to_reference (fuel : Nat) (s : ConvState)
    (m : Bool) (e e2 : RType) (h : convertType fuel s e = .ok e2) :
    convertType (fuel + 2) s (.ptr m e) = .ok (.ref m e2) ∧
    convert_return_type (fuel + 2) s (some (.ptr m e)) =
      .ok (some (.ref m e2), some (.unconverted (.ref m e2))) ∧
    (∀ nm : String, nm ≠ "this" →
      convert_fn_arg (fuel + 2) s (.typed (.ident nm) (.ptr m e)) =
        .ok ((.ident nm, .ref m e2),
             ⟨.unconverted (.ref m e2), .ident nm, false⟩)) := by
  have step1 : convertType (fuel + 2) s (.ptr m e) =
      (match convertType fuel s e with
       | .error err => .error err
       | .ok e2 => .ok (.ref m e2)) := rfl
  have h1 : convertType (fuel + 2) s (.ptr m e) = .ok (.ref m e2) := by
    rw [step1, h]
  refine ⟨h1, ?_, ?_⟩
  · show (match convertType (fuel + 2) s (.ptr m e) with
      | .error err => .error err
      | .ok t2 => Except.ok (some t2, some (if requires_conversion s t2
          then ArgumentConversion.toUniquePtr t2
          else ArgumentConversion.unconverted t2))) =
      Except.ok (some (RType.ref m e2),
        some (ArgumentConversion.unconverted (RType.ref m e2)))
    rw [h1]
    rfl
  · intro nm hnm
    unfold convert_fn_arg
    dsimp only
    rw [if_neg hnm]
    unfold convert_boxed_type
    rw [h1]
    rfl

/-- Witness for C5 at a concrete input: the element converts at fuel
1, so a mutable pointer to it converts to a mutable reference, in
both parameter and return position. -/
theorem c5_witness :
    convertType 1 emptyState RType.otherTy = .ok RType.otherTy ∧
    convertType 3 emptyState (.ptr true RType.otherTy) =
      .ok (.ref true RType.otherTy) ∧
    convert_return_type 3 emptyState (some (.ptr true RType.otherTy)) =
      .ok (some (.ref true RType.otherTy),
        some (.unconverted (.ref true RType.otherTy))) ∧
    convert_fn_arg 3 emptyState (.typed (.ident "x") (.ptr true RType.otherTy)) =
      .ok ((.ident "x", .ref true RType.otherTy),
           ⟨.unconverted (.ref true RType.otherTy), .ident "x", false⟩) := by
  have h := c5_pointer_lowered_to_reference 1 emptyState true RType.otherTy
    RType.otherTy rfl
  exact ⟨rfl, h.1, h.2.1, h.2.2 "x" (by decide)⟩

/-- C6: a foreign function whose flat name matches the constructor
pattern `{ty}_{ty}` or the destructor pattern `{ty}_{ty}_destructor`
for a type already seen during the walk is skipped outright: the
conversion state is returned unchanged, so no bridge declaration for
it is ever emitted. -/
theorem c6_ctor_dtor_pattern_skipped (fuel : Nat) (s : ConvState)
    (f : ForeignItemFn) (ns : NamespaceM) (ty : String)
    (hmem : ty ∈ s.typesFound)
    (hname : f.name = ctorName ty ∨ f.name = dtorName ty) :
    convert_foreign_fn fuel s f ns = .ok s := by
  unfold convert_foreign_fn
  have hany : s.typesFound.any
      (fun t => f.name = ctorName t || f.name = dtorName t) = true := by
    refine List.any_eq_true.mpr ⟨ty, hmem, ?_⟩
    rcases hname with h | h <;> simp [h]
  rw [hany]
  rfl

/-- State in which type `Bob` has been seen. -/
def bobState : ConvState := { emptyState with typesFound := ["Bob"] }

/-- Witness for C6: in a state where `Bob` has been seen, the
constructor-pattern function `Bob_Bob` is dropped with the state
unchanged (even with no fuel, since the check precedes all
recursion). -/
theorem c6_witness :
    convert_foreign_fn 0 bobState ⟨"Bob_Bob", [], none⟩ [] = .ok bobState :=
  c6_ctor_dtor_pattern_skipped 0 bobState ⟨"Bob_Bob", [], none⟩ [] "Bob"
    (by decide) (Or.inl rfl)

/-- Counterexample for C4 as stated: for a method whose flat name
`Bob` exactly equals the previously-seen type identifier `Bob`, the
source slice `rust_name[cn.len() + 1..]` is out of range, so the
stripping loop panics instead of producing a visible name. -/
theorem c4_counterexample :
    strip_class_name ["Bob"] "Bob" = .error (.panicked sliceOutOfRangeMsg) := by
  decide

/-- C4 (amended): for a method flat name that begins with — and is
strictly longer than — a previously-seen type identifier, the visible
name is the flat name with that identifier plus one separator
character stripped, and the first matching identifier in seen order
wins. -/
theorem c4_method_prefix_stripped (pre post : List String)
    (cn rust_name : String)
    (hpre : ∀ c ∈ pre, startsWithM rust_name c = false)
    (hcn : startsWithM rust_name cn = true)
    (hlen : cn.length < rust_name.length) :
    strip_class_name (pre ++ cn :: post) rust_name =
      .ok (rust_name.drop (cn.length + 1)) := by
  unfold strip_class_name
  have hfind : (pre ++ cn :: post).find?
      (fun c => startsWithM rust_name c) = some cn := by
    rw [List.find?_append]
    have h1 : pre.find? (fun c => startsWithM rust_name c) = none :=
      List.find?_eq_none.mpr (fun x hx => by simp [hpre x hx])
    rw [h1]
    simp [List.find?_cons, hcn]
  rw [hfind]
  dsimp only
  rw [if_neg (by omega)]

/-- Witness for C4: with seen types `[Zed, Bob]`, the method flat name
`Bob_get` strips to `get`. -/
theorem c4_witness :
    strip_class_name ["Zed", "Bob"] "Bob_get" = .ok "get" := by
  have h := c4_method_prefix_stripped ["Zed"] [] "Bob" "Bob_get"
    (by decide) (by decide) (by decide)
  simpa using h

/-- The `new`-named methods of an impl block, in order (the methods
for which the constructor scan invokes `convert_new_method`). -/
def newMethodsOf (items : List ImplItem) : List ImplItemMethod :=
  items.filterMap (fun it => match it with
    | .method m => if m.name = "new" then some m else none
    | .otherImplItem => none)

theorem convert_impl_items_no_new (ty : TypeNameM) (i : ItemImpl) :
    ∀ items, newMethodsOf items = [] →
      ∀ s, convert_impl_items s ty i items = (s, []) := by
  intro items
  induction items with
  | nil => intro _ s; rfl
  | cons it rest ih =>
    intro h s
    cases it with
    | method m =>
      by_cases hname : m.name = "new"
      · exfalso
        simp [newMethodsOf, List.filterMap_cons, hname] at h
      · have hrest : newMethodsOf rest = [] := by
          simpa [newMethodsOf, List.filterMap_cons, hname] using h
        show convert_impl_items s ty i (.method m :: rest) = (s, [])
        unfold convert_impl_items
        rw [if_neg hname]
        exact ih hrest s
    | otherImplItem =>
      have hrest : newMethodsOf rest = [] := by
        simpa [newMethodsOf, List.filterMap_cons] using h
      show convert_impl_items s ty i (.otherImplItem :: rest) = (s, [])
      unfold convert_impl_items
      exact ih hrest s

theorem convert_impl_items_single_new (ty : TypeNameM) (i : ItemImpl)
    (m : ImplItemMethod) :
    ∀ items, newMethodsOf items = [m] →
      ∀ s, convert_impl_items s ty i items = convert_new_method s m ty i := by
  intro items
  induction items with
  | nil => intro h; exact absurd h (by simp [newMethodsOf])
  | cons it rest ih =>
    intro h s
    cases it with
    | method m0 =>
      by_cases hname : m0.name = "new"
      · have hm : m0 = m ∧ newMethodsOf rest = [] := by
          have := h
          simp [newMethodsOf, List.filterMap_cons, hname] at this
          exact ⟨this.1, by simpa [newMethodsOf] using this.2⟩
        show convert_impl_items s ty i (.method m0 :: rest) =
          convert_new_method s m ty i
        unfold convert_impl_items
        rw [if_pos hname, hm.1]
        simp [convert_impl_items_no_new ty i rest hm.2]
      · have hrest : newMethodsOf rest = [m] := by
          simpa [newMethodsOf, List.filterMap_cons, hname] using h
        show convert_impl_items s ty i (.method m0 :: rest) =
          convert_new_method s m ty i
        unfold convert_impl_items
        rw [if_neg hname]
        exact ih hrest s
    | otherImplItem =>
      have hrest : newMethodsOf rest = [m] := by
        simpa [newMethodsOf, List.filterMap_cons] using h
      show convert_impl_items s ty i (.otherImplItem :: rest) =
        convert_new_method s m ty i
      unfold convert_impl_items
      exact ih hrest s

/-- Impl block for `Bob` whose `new` method has a defaulted return
type. -/
def c3NoRetImpl : ItemImpl :=
  ⟨.path [("root", []), ("Bob", [])],
   [.method ⟨"new", [], none, false, .original⟩], false⟩

/-- Counterexample for C3 as stated: a detected constructor block
whose `new` method has no declared return type emits no allocation
method at all (and records no AllocationFactory need) — zero
emissions, not exactly one, because `convert_new_method` returns
early on `ReturnType::Default`. -/
theorem c3_counterexample :
    convert_mod_item 1 emptyState [] (.implI c3NoRetImpl) =
      .ok (emptyState, []) := rfl

/-- C3 (amended): for every detected constructor block whose single
`new`-named method has a declared return type, exactly one allocation
method is emitted: the parameter list is kept, the body becomes a
call to the synthesized factory, the name becomes `make_unique`, the
return type becomes a uniquely-owned handle to the original return
type, and exactly one AllocationFactory (`MakeUnique`) need is
recorded. -/
theorem c3_constructor_block_rewritten (fuel : Nat) (s : ConvState)
    (ns : NamespaceM) (i : ItemImpl) (ty : TypeNameM) (m : ImplItemMethod)
    (oldret : RType)
    (hty : type_to_typename i.selfTy = some ty)
    (hnew : newMethodsOf i.items = [m])
    (hret : m.output = some oldret) :
    ∃ s2, convert_mod_item (fuel + 1) s ns (.implI i) = .ok (s2,
        [.implI ⟨i.selfTy,
          [.method ⟨"make_unique", m.inputs, some (uniquePtrOf oldret), false,
            .callsFactory (ty.render ++ "_make_unique")
              ((cppConstructorArgs m.inputs).map Prod.snd)⟩], false⟩]) ∧
      s2.additionalCppNeeds = s.additionalCppNeeds ++
        [.makeUnique ty ((cppConstructorArgs m.inputs).map Prod.fst)] := by
  have hstep : convert_mod_item (fuel + 1) s ns (.implI i) =
      (match type_to_typename i.selfTy with
       | some ty2 => .ok (convert_impl_items s ty2 i i.items)
       | none => .ok (s, [])) := rfl
  rw [hstep, hty]
  dsimp only
  rw [convert_impl_items_single_new ty i m i.items hnew s]
  refine ⟨(convert_new_method s m ty i).1, ?_, ?_⟩
  · unfold convert_new_method
    rw [hret]
  · unfold convert_new_method
    rw [hret]
    simp [addUse]

/-- Impl block for `Bob` with a `new` method taking one argument and
returning `Bob`. -/
def c3WImpl : ItemImpl :=
  ⟨.path [("root", []), ("Bob", [])],
   [.method ⟨"new", [.typed (.ident "a") (.path [("u32", [])])],
     some (.path [("root", []), ("Bob", [])]), true, .original⟩], true⟩

/-- Witness for C3 at the concrete block `c3WImpl`: exactly one
allocation method and one MakeUnique need result. -/
theorem c3_witness :
    ∃ s2, convert_mod_item 1 emptyState [] (.implI c3WImpl) = .ok (s2,
        [.implI ⟨.path [("root", []), ("Bob", [])],
          [.method ⟨"make_unique",
            [.typed (.ident "a") (.path [("u32", [])])],
            some (uniquePtrOf (.path [("root", []), ("Bob", [])])), false,
            .callsFactory ((TypeNameM.render ⟨[], "Bob"⟩) ++ "_make_unique")
              ["a"]⟩], false⟩]) ∧
      s2.additionalCppNeeds = [.makeUnique ⟨[], "Bob"⟩ [⟨[], "u32"⟩]] := by
  have h := c3_constructor_block_rewritten 0 emptyState [] c3WImpl
    ⟨[], "Bob"⟩
    ⟨"new", [.typed (.ident "a") (.path [("u32", [])])],
      some (.path [("root", []), ("Bob", [])]), true, .original⟩
    (.path [("root", []), ("Bob", [])]) rfl rfl rfl
  simpa [cppConstructorArgs, type_to_typename] using h

/-- C2: when a function (not matching a constructor/destructor
pattern) has some parameter or return needing by-value conversion,
`convert_foreign_fn` records exactly one `ByValueWrapper` additional
need targeting the original short name, and emits exactly one bridge
declaration whose internal name is the `_up_wrapper`-suffixed name
while its `rust_name` alias attribute restores the original short
name, so callers observe no difference. -/
theorem c2_byvalue_wrapper_emitted (fuel : Nat) (s : ConvState)
    (f : ForeignItemFn) (ns : NamespaceM)
    (analyzed : List ((Pat × RType) × ArgumentAnalysis))
    (rust_name : String) (ret_type : Option RType)
    (ret_conv : Option ArgumentConversion)
    (hskip : (s.typesFound.any
      (fun ty => f.name = ctorName ty || f.name = dtorName ty)) = false)
    (hargs : convertFnArgs fuel s f.inputs = .ok analyzed)
    (hstrip : (if (analyzed.map Prod.snd).any (fun b => b.was_self)
               then strip_class_name s.typesFound f.name
               else .ok f.name) = .ok rust_name)
    (hret : convert_return_type fuel s f.output = .ok (ret_type, ret_conv))
    (hneed : ((analyzed.map Prod.snd).any (fun b => b.conversion.work_needed)
      || ret_conv.elim false (fun x => x.work_needed)) = true) :
    ∃ s2 ps rt, convert_foreign_fn fuel s f ns = .ok s2 ∧
      s2.additionalCppNeeds = s.additionalCppNeeds ++
        [.byValueWrapper rust_name ret_conv
          ((analyzed.map Prod.snd).map (fun d => d.conversion))
          ((analyzed.map Prod.snd).any (fun b => b.was_self))] ∧
      s2.externCModItems = s.externCModItems ++
        [.fnOut (if ns.isEmpty then none
                 else some (String.intercalate "::" ns))
          (some rust_name) (rust_name ++ "_up_wrapper") ps rt] := by
  cases ret_conv with
  | none =>
    unfold convert_foreign_fn
    rw [if_neg (by simp [hskip])]
    rw [hargs]
    dsimp only
    rw [hstrip]
    dsimp only
    rw [hret]
    dsimp only
    rw [if_pos (by simp only [hneed])]
    refine ⟨_,
      unqualify_params ((analyzed.map Prod.snd).map (fun pd =>
        ((if pd.was_self then Pat.ident "autocxx_gen_this" else pd.name),
         pd.conversion.converted_rust_type))),
      unqualify_ret_type ret_type, rfl, ?_, ?_⟩
    · simp [emitForeignFn, addUse]
    · simp [emitForeignFn, addUse]
  | some conv =>
    unfold convert_foreign_fn
    rw [if_neg (by simp [hskip])]
    rw [hargs]
    dsimp only
    rw [hstrip]
    dsimp only
    rw [hret]
    dsimp only
    rw [if_pos (by simp only [hneed])]
    refine ⟨_,
      unqualify_params ((analyzed.map Prod.snd).map (fun pd =>
        ((if pd.was_self then Pat.ident "autocxx_gen_this" else pd.name),
         pd.conversion.converted_rust_type))),
      unqualify_ret_type (some conv.unconverted_rust_type), rfl, ?_, ?_⟩
    · simp [emitForeignFn, addUse]
    · simp [emitForeignFn, addUse]

/-- Foreign function taking the opaque type `Bob` by value. -/
def c2WFn : ForeignItemFn :=
  ⟨"take_bob", [.typed (.ident "b") (.path [("root", []), ("Bob", [])])], none⟩

/-- Parameter analysis of `c2WFn` in the empty state (`Bob` is not
classified Trivial, so the parameter needs unboxing from a handle). -/
def c2WAnalyzed : List ((Pat × RType) × ArgumentAnalysis) :=
  [((.ident "b", .path [("Bob", [])]),
    ⟨.fromUniquePtr (.path [("Bob", [])]), .ident "b", false⟩)]

/-- Witness for C2: converting `take_bob` (which takes opaque `Bob` by
value) records exactly one ByValueWrapper need and emits exactly one
declaration named `take_bob_up_wrapper` carrying the alias attribute
`take_bob`. -/
theorem c2_witness :
    ∃ s2 ps rt, convert_foreign_fn 5 emptyState c2WFn [] = .ok s2 ∧
      s2.additionalCppNeeds =
        [.byValueWrapper "take_bob" none
          [.fromUniquePtr (.path [("Bob", [])])] false] ∧
      s2.externCModItems =
        [.fnOut none (some "take_bob") "take_bob_up_wrapper" ps rt] := by
  have h := c2_byvalue_wrapper_emitted 5 emptyState c2WFn [] c2WAnalyzed
    "take_bob" none none rfl rfl rfl rfl rfl
  exact h

/-- A result that is not the given recoverable error kind: used to
show which failures the signature-conversion layer can produce. -/
def noConvertErr {α : Type} (r : Res α) : Prop :=
  ∀ ce : ConvertError, r ≠ .error (.convertErr ce)

theorem noConvertErr_ok {α : Type} (a : α) :
    noConvertErr (Except.ok a : Res α) := by
  intro ce h
  exact absurd h (by simp)

theorem noConvertErr_diverged {α : Type} :
    noConvertErr (Except.error Failure.diverged : Res α) := by
  intro ce h
  simp at h

theorem noConvertErr_panicked {α : Type} (m : String) :
    noConvertErr (Except.error (Failure.panicked m) : Res α) := by
  intro ce h
  simp at h

theorem match_noConvertErr {α β : Type} (r : Res α) (f : α → Res β)
    (h1 : noConvertErr r) (h2 : ∀ a, noConvertErr (f a)) :
    noConvertErr (match r with
      | .error e => .error e
      | .ok a => f a) := by
  cases r with
  | error e =>
    intro ce hh
    dsimp only at hh
    have he : e = Failure.convertErr ce := by injection hh
    exact h1 ce (by rw [he])
  | ok a => exact h2 a

theorem resolveTypedef_noConvertErr :
    ∀ (fuel : Nat) (tds : List (TypeNameM × TypedefTarget)) (tn : TypeNameM),
      noConvertErr (resolveTypedef tds fuel tn) := by
  intro fuel
  induction fuel with
  | zero => intro tds tn; exact noConvertErr_diverged
  | succ n ih =>
    intro tds tn
    rw [resolveTypedef]
    cases hlook : tds.lookup tn with
    | none => exact noConvertErr_ok none
    | some target =>
      cases target with
      | noArguments original =>
        dsimp only
        cases hres : resolveTypedef tds n original with
        | error e =>
          intro ce hh
          dsimp only at hh
          exact ih tds original ce (hres.trans hh)
        | ok r =>
          cases r with
          | none => exact noConvertErr_ok _
          | some further => exact noConvertErr_ok _
      | hasArguments => exact noConvertErr_panicked _
      | somethingComplex => exact noConvertErr_panicked _

theorem noConvertErr_ite {α : Type} (c : Prop) [Decidable c] (r1 r2 : Res α)
    (h1 : noConvertErr r1) (h2 : noConvertErr r2) :
    noConvertErr (if c then r1 else r2) := by
  by_cases hc : c
  · simpa [hc] using h1
  · simpa [hc] using h2

theorem noConvertErr_propagate {α β : Type} (r : Res α) (hr : noConvertErr r)
    (err : Failure) (heq : r = .error err) :
    noConvertErr (Except.error err : Res β) := by
  intro ce hh
  have he : err = Failure.convertErr ce := by injection hh
  exact hr ce (by rw [heq, he])

theorem convertFamily_noConvertErr : ∀ fuel : Nat,
    (∀ s ty, noConvertErr (convertType fuel s ty)) ∧
    (∀ s m e, noConvertErr (convert_ptr_to_reference fuel s m e)) ∧
    (∀ s segs, noConvertErr (convert_type_path fuel s segs)) ∧
    (∀ s segs, noConvertErr (convert_segs_args fuel s segs)) ∧
    (∀ s args, noConvertErr (convert_punctuated fuel s args)) ∧
    (∀ s segs, noConvertErr (replace_cpp_with_cxx fuel s segs)) := by
  intro fuel
  induction fuel with
  | zero =>
    exact ⟨fun _ _ => noConvertErr_diverged, fun _ _ _ => noConvertErr_diverged,
      fun _ _ => noConvertErr_diverged, fun _ _ => noConvertErr_diverged,
      fun _ _ => noConvertErr_diverged, fun _ _ => noConvertErr_diverged⟩
  | succ n ih =>
    obtain ⟨ihT, ihP, ihTP, ihSA, ihPU, ihR⟩ := ih
    refine ⟨?_, ?_, ?_, ?_, ?_, ?_⟩
    · intro s ty
      cases ty with
      | path segs =>
        rw [convertType.eq_def]
        dsimp only
        cases hres : convert_type_path n s segs with
        | error err => exact noConvertErr_propagate _ (ihTP s segs) err hres
        | ok newp =>
          exact noConvertErr_ite _ _ _ (noConvertErr_ok _) (noConvertErr_ok _)
      | ref m e =>
        rw [convertType.eq_def]
        dsimp only
        cases hres : convertType n s e with
        | error err => exact noConvertErr_propagate _ (ihT s e) err hres
        | ok e2 => exact noConvertErr_ok _
      | ptr m e =>
        rw [convertType.eq_def]
        dsimp only
        exact ihP s m e
      | otherTy =>
        rw [convertType.eq_def]
        dsimp only
        exact noConvertErr_ok _
    · intro s m e
      rw [convert_ptr_to_reference.eq_def]
      dsimp only
      cases hres : convertType n s e with
      | error err => exact noConvertErr_propagate _ (ihT s e) err hres
      | ok e2 => exact noConvertErr_ok _
    · intro s segs
      rw [convert_type_path.eq_def]
      dsimp only
      cases hh : segs.head? with
      | none => exact noConvertErr_panicked _
      | some first =>
        dsimp only
        cases hres : (if first.1 = "root"
            then convert_segs_args n s (segs.drop 1)
            else Except.ok segs) with
        | error err =>
          refine noConvertErr_propagate _ ?_ err hres
          exact noConvertErr_ite _ _ _ (ihSA s _) (noConvertErr_ok _)
        | ok segs2 => exact ihR s segs2
    · intro s segs
      cases segs with
      | nil =>
        rw [convert_segs_args.eq_def]
        dsimp only
        exact noConvertErr_ok _
      | cons sg rest =>
        obtain ⟨nm, args⟩ := sg
        rw [convert_segs_args.eq_def]
        dsimp only
        cases hres : convert_punctuated n s args with
        | error err => exact noConvertErr_propagate _ (ihPU s args) err hres
        | ok args2 =>
          dsimp only
          cases hres2 : convert_segs_args n s rest with
          | error err => exact noConvertErr_propagate _ (ihSA s rest) err hres2
          | ok rest2 => exact noConvertErr_ok _
    · intro s args
      cases args with
      | nil => exact noConvertErr_ok ([] : List GenArg)
      | cons a rest =>
        cases a with
        | tyArg t =>
          have hstep : convert_punctuated (n + 1) s (GenArg.tyArg t :: rest) =
              (match (match convertType n s t with
                      | .error e => .error e
                      | .ok t2 => .ok (GenArg.tyArg t2) : Res GenArg) with
               | .error e => .error e
               | .ok a2 =>
                 match convert_punctuated n s rest with
                 | .error e => .error e
                 | .ok rest2 => .ok (a2 :: rest2)) := rfl
          rw [hstep]
          cases hres : convertType n s t with
          | error err => exact noConvertErr_propagate _ (ihT s t) err hres
          | ok t2 =>
            dsimp only
            cases hres2 : convert_punctuated n s rest with
            | error err => exact noConvertErr_propagate _ (ihPU s rest) err hres2
            | ok rest2 => exact noConvertErr_ok _
        | otherArg =>
          have hstep : convert_punctuated (n + 1) s (GenArg.otherArg :: rest) =
              (match convert_punctuated n s rest with
               | .error e => .error e
               | .ok rest2 => .ok (GenArg.otherArg :: rest2)) := rfl
          rw [hstep]
          cases hres2 : convert_punctuated n s rest with
          | error err => exact noConvertErr_propagate _ (ihPU s rest) err hres2
          | ok rest2 => exact noConvertErr_ok _
    · intro s segs
      rw [replace_cpp_with_cxx.eq_def]
      dsimp only
      refine noConvertErr_ite _ _ _ (noConvertErr_panicked _) ?_
      cases hres : resolveTypedef s.typedefs n (TypeNameM.from_cxx_type_path segs) with
      | error err =>
        exact noConvertErr_propagate _
          (resolveTypedef_noConvertErr n s.typedefs _) err hres
      | ok resolved => exact noConvertErr_ok _

theorem convert_fn_arg_noConvertErr (fuel : Nat) (s : ConvState)
    (arg : FnArgM) : noConvertErr (convert_fn_arg fuel s arg) := by
  cases arg with
  | typed pat ty =>
    unfold convert_fn_arg
    dsimp only
    cases hres : convert_boxed_type fuel s ty with
    | error err =>
      exact noConvertErr_propagate _
        ((convertFamily_noConvertErr fuel).1 s ty) err hres
    | ok newTy => exact noConvertErr_ok _
  | receiver => exact noConvertErr_panicked _

theorem convertFnArgs_noConvertErr (fuel : Nat) (s : ConvState) :
    ∀ args, noConvertErr (convertFnArgs fuel s args) := by
  intro args
  induction args with
  | nil => exact noConvertErr_ok _
  | cons a rest ih =>
    unfold convertFnArgs
    cases hres : convert_fn_arg fuel s a with
    | error err =>
      exact noConvertErr_propagate _
        (convert_fn_arg_noConvertErr fuel s a) err hres
    | ok r =>
      dsimp only
      cases hres2 : convertFnArgs fuel s rest with
      | error err => exact noConvertErr_propagate _ ih err hres2
      | ok rs => exact noConvertErr_ok _

theorem strip_class_name_noConvertErr (tf : List String) (rn : String) :
    noConvertErr (strip_class_name tf rn) := by
  unfold strip_class_name
  split
  · exact noConvertErr_ok _
  · split
    · exact noConvertErr_panicked _
    · exact noConvertErr_ok _

theorem convert_return_type_noConvertErr (fuel : Nat) (s : ConvState)
    (rt : Option RType) : noConvertErr (convert_return_type fuel s rt) := by
  cases rt with
  | none => exact noConvertErr_ok _
  | some t =>
    unfold convert_return_type
    dsimp only
    cases hres : convert_boxed_type fuel s t with
    | error err =>
      exact noConvertErr_propagate _
        ((convertFamily_noConvertErr fuel).1 s t) err hres
    | ok t2 => exact noConvertErr_ok _

theorem convert_foreign_fn_noConvertErr (fuel : Nat) (s : ConvState)
    (f : ForeignItemFn) (ns : NamespaceM) :
    noConvertErr (convert_foreign_fn fuel s f ns) := by
  unfold convert_foreign_fn
  split
  · exact noConvertErr_ok _
  · cases hres : convertFnArgs fuel s f.inputs with
    | error err =>
      exact noConvertErr_propagate _
        (convertFnArgs_noConvertErr fuel s f.inputs) err hres
    | ok analyzed =>
      dsimp only
      cases hres2 : (if (analyzed.map Prod.snd).any (fun b => b.was_self)
          then strip_class_name s.typesFound f.name
          else Except.ok f.name) with
      | error err =>
        refine noConvertErr_propagate _ ?_ err hres2
        exact noConvertErr_ite _ _ _
          (strip_class_name_noConvertErr _ _) (noConvertErr_ok _)
      | ok rust_name =>
        dsimp only
        cases hres3 : convert_return_type fuel s f.output with
        | error err =>
          exact noConvertErr_propagate _
            (convert_return_type_noConvertErr fuel s f.output) err hres3
        | ok pr =>
          obtain ⟨ret_type, ret_conv⟩ := pr
          dsimp only
          split
          · exact noConvertErr_ok _
          · exact noConvertErr_ok _

theorem cfmi_allFn_noUFI :
    ∀ (fuel : Nat) (s : ConvState) (items : List ForeignItemIn)
      (ns : NamespaceM),
      (∀ i ∈ items, i ≠ ForeignItemIn.otherItem) →
      convert_foreign_mod_items fuel s items ns ≠
        .error (.convertErr .unknownForeignItem) := by
  intro fuel
  induction fuel with
  | zero =>
    intro s items ns hall h
    simp [convert_foreign_mod_items] at h
  | succ n ih =>
    intro s items ns hall h
    cases items with
    | nil => simp [convert_foreign_mod_items] at h
    | cons i rest =>
      cases i with
      | otherItem => exact (hall _ (by simp)) rfl
      | fnItem f =>
        have hstep : convert_foreign_mod_items (n + 1) s
            (ForeignItemIn.fnItem f :: rest) ns =
            (match convert_foreign_fn n s f ns with
             | .error e => .error e
             | .ok s2 => convert_foreign_mod_items n s2 rest ns) := rfl
        rw [hstep] at h
        cases hres : convert_foreign_fn n s f ns with
        | error err =>
          rw [hres] at h
          dsimp only at h
          have he : err = Failure.convertErr ConvertError.unknownForeignItem := by
            injection h
          exact convert_foreign_fn_noConvertErr n s f ns
            ConvertError.unknownForeignItem (hres.trans (by rw [he]))
        | ok s2 =>
          rw [hres] at h
          dsimp only at h
          exact ih s2 rest ns (fun i hi => hall i (by simp [hi])) h

theorem cfmi_prefix_ok_then_other (rest : List ForeignItemIn) :
    ∀ (fuel : Nat) (pre : List ForeignItemIn) (s s1 : ConvState)
      (ns : NamespaceM),
      convert_foreign_mod_items fuel s pre ns = .ok s1 →
      convert_foreign_mod_items fuel s (pre ++ .otherItem :: rest) ns =
        .error (.convertErr .unknownForeignItem) := by
  intro fuel
  induction fuel with
  | zero =>
    intro pre s s1 ns h
    simp [convert_foreign_mod_items] at h
  | succ n ih =>
    intro pre s s1 ns h
    cases pre with
    | nil => rfl
    | cons i pre2 =>
      cases i with
      | otherItem =>
        have hstep : convert_foreign_mod_items (n + 1) s
            (ForeignItemIn.otherItem :: pre2) ns =
            .error (.convertErr .unknownForeignItem) := rfl
        rw [hstep] at h
        exact absurd h (by simp)
      | fnItem f =>
        have hstep : convert_foreign_mod_items (n + 1) s
            (ForeignItemIn.fnItem f :: pre2) ns =
            (match convert_foreign_fn n s f ns with
             | .error e => .error e
             | .ok s2 => convert_foreign_mod_items n s2 pre2 ns) := rfl
        rw [hstep] at h
        have hstep2 : convert_foreign_mod_items (n + 1) s
            (ForeignItemIn.fnItem f :: (pre2 ++ .otherItem :: rest)) ns =
            (match convert_foreign_fn n s f ns with
             | .error e => .error e
             | .ok s2 =>
               convert_foreign_mod_items n s2 (pre2 ++ .otherItem :: rest) ns) := rfl
        rw [List.cons_append, hstep2]
        cases hres : convert_foreign_fn n s f ns with
        | error err =>
          rw [hres] at h
          dsimp only at h
          exact absurd h (by simp)
        | ok s2 =>
          rw [hres] at h
          dsimp only at h
          dsimp only
          exact ih pre2 s2 s1 ns h

theorem foreignMod_error_propagates (fuel : Nat) (s : ConvState)
    (ns : NamespaceM) (fms : List ForeignItemIn) (rest : List ItemM)
    (e : Failure)
    (h : convert_foreign_mod_items fuel
      (if s.externCModCaptured then s
       else { s with externCModCaptured := true }) fms ns = .error e) :
    convert_mod_items (fuel + 2) s ns (.foreignMod fms :: rest) = .error e := by
  have hstep : convert_mod_items (fuel + 2) s ns (.foreignMod fms :: rest) =
      (match convert_mod_item (fuel + 1) s ns (.foreignMod fms) with
       | .error e2 => .error e2
       | .ok r1 =>
         match convert_mod_items (fuel + 1) r1.1 ns rest with
         | .error e2 => .error e2
         | .ok r2 => .ok (r2.1, r1.2 ++ r2.2)) := rfl
  have hstep2 : convert_mod_item (fuel + 1) s ns (.foreignMod fms) =
      (match convert_foreign_mod_items fuel
          (if s.externCModCaptured then s
           else { s with externCModCaptured := true }) fms ns with
       | .error e2 => .error e2
       | .ok s2 => .ok (s2, [])) := rfl
  rw [hstep, hstep2, h]

/-- Foreign function declared with a receiver argument, which the
source's `convert_fn_arg` panics on. -/
def c7RecvFn : ForeignItemFn := ⟨"bad", [.receiver], none⟩

/-- Counterexample for C7 as stated: this block contains a declaration
that is not a function (its second item), yet processing it does not
return `UnknownForeignItem` — the first, function, item aborts the run
with a panic before the non-function item is reached, so the claimed
"if and only if" fails. -/
theorem c7_counterexample :
    convert_foreign_mod_items 2 emptyState [.fnItem c7RecvFn, .otherItem] [] =
      .error (.panicked receiverMsg) := rfl

/-- C7 (amended): processing a foreign-function block returns the
`UnknownForeignItem` error iff a non-function declaration is actually
reached: (a) a block of only function declarations never produces
this error (it may still end in a fail-fast panic, but not in this
recoverable error); (b) whenever the declarations before a
non-function one all process successfully, the error is returned; and
(c) the error (or any failure) of a block terminates the enclosing
namespace walk with no partial result. -/
theorem c7_unknown_foreign_item_scope :
    (∀ (fuel : Nat) (s : ConvState) (items : List ForeignItemIn)
        (ns : NamespaceM),
      (∀ i ∈ items, i ≠ ForeignItemIn.otherItem) →
      convert_foreign_mod_items fuel s items ns ≠
        .error (.convertErr .unknownForeignItem)) ∧
    (∀ (fuel : Nat) (pre rest : List ForeignItemIn) (s s1 : ConvState)
        (ns : NamespaceM),
      convert_foreign_mod_items fuel s pre ns = .ok s1 →
      convert_foreign_mod_items fuel s (pre ++ .otherItem :: rest) ns =
        .error (.convertErr .unknownForeignItem)) ∧
    (∀ (fuel : Nat) (s : ConvState) (ns : NamespaceM)
        (fms : List ForeignItemIn) (rest : List ItemM) (e : Failure),
      convert_foreign_mod_items fuel
        (if s.externCModCaptured then s
         else { s with externCModCaptured := true }) fms ns = .error e →
      convert_mod_items (fuel + 2) s ns (.foreignMod fms :: rest) =
        .error e) := by
  refine ⟨cfmi_allFn_noUFI, ?_, ?_⟩
  · intro fuel pre rest s s1 ns h
    exact cfmi_prefix_ok_then_other rest fuel pre s s1 ns h
  · intro fuel s ns fms rest e h
    exact foreignMod_error_propagates fuel s ns fms rest e h

/-- Witness for C7: one function that processes fine followed by a
non-function item yields exactly the `UnknownForeignItem` error, and
it propagates out of the namespace walk. -/
theorem c7_witness :
    convert_foreign_mod_items 2 emptyState
      ([.fnItem ⟨"go", [], none⟩] ++ .otherItem :: []) [] =
      .error (.convertErr .unknownForeignItem) ∧
    convert_mod_items 4 emptyState []
      [.foreignMod [.fnItem ⟨"go", [], none⟩, .otherItem]] =
      .error (.convertErr .unknownForeignItem) := by
  constructor
  · exact c7_unknown_foreign_item_scope.2.1 2 [.fnItem ⟨"go", [], none⟩] []
      emptyState (addUse { emptyState with externCModItems :=
        [.fnOut none none "go" [] none] } [] "go") [] rfl
  · exact c7_unknown_foreign_item_scope.2.2 2 emptyState []
      [.fnItem ⟨"go", [], none⟩, .otherItem] [] (.convertErr .unknownForeignItem)
      rfl

mutual
/-- Tags of the `const` items contained in one item, recursively
through nested modules. -/
def itemConsts : ItemM → List String
  | .constI t => [t]
  | .modI _ (some items) => itemsConsts items
  | _ => []

/-- Tags of the `const` items contained in an item list, recursively
through nested modules. -/
def itemsConsts : List ItemM → List String
  | [] => []
  | i :: rest => itemConsts i ++ itemsConsts rest
end

mutual
/-- Whether one item contains a `const` item, recursively through
nested modules. -/
def itemHasConst : ItemM → Bool
  | .constI _ => true
  | .modI _ (some items) => itemsHaveConst items
  | _ => false

/-- Whether an item list contains a `const` item, recursively through
nested modules. -/
def itemsHaveConst : List ItemM → Bool
  | [] => false
  | i :: rest => itemHasConst i || itemsHaveConst rest
end

theorem emitForeignFn_allItems (s : ConvState) (ns : NamespaceM)
    (rna : Option String) (cbn : String) (ps : List (Pat × RType))
    (ret : Option RType) (rn : String) (im wn : Bool) :
    (emitForeignFn s ns rna cbn ps ret rn im wn).allItems = s.allItems := by
  unfold emitForeignFn
  dsimp only
  split <;> simp [addUse]

theorem convert_foreign_fn_allItems (fuel : Nat) (s : ConvState)
    (f : ForeignItemFn) (ns : NamespaceM) (s2 : ConvState)
    (h : convert_foreign_fn fuel s f ns = .ok s2) :
    s2.allItems = s.allItems := by
  unfold convert_foreign_fn at h
  split at h
  · exact congrArg ConvState.allItems (Except.ok.inj h).symm
  · split at h
    · exact absurd h (by simp)
    · (try dsimp only at h)
      split at h
      · exact absurd h (by simp)
      · (try dsimp only at h)
        split at h
        · exact absurd h (by simp)
        · (try dsimp only at h)
          split at h
          · rw [← Except.ok.inj h]
            simp [emitForeignFn_allItems]
          · rw [← Except.ok.inj h]
            simp [emitForeignFn_allItems]

theorem cfmi_allItems :
    ∀ (fuel : Nat) (s : ConvState) (items : List ForeignItemIn)
      (ns : NamespaceM) (s2 : ConvState),
      convert_foreign_mod_items fuel s items ns = .ok s2 →
      s2.allItems = s.allItems := by
  intro fuel
  induction fuel with
  | zero =>
    intro s items ns s2 h
    simp [convert_foreign_mod_items] at h
  | succ n ih =>
    intro s items ns s2 h
    cases items with
    | nil =>
      have hstep : convert_foreign_mod_items (n + 1) s [] ns = .ok s := rfl
      rw [hstep] at h
      exact congrArg ConvState.allItems (Except.ok.inj h).symm
    | cons i rest =>
      cases i with
      | otherItem =>
        have hstep : convert_foreign_mod_items (n + 1) s
            (ForeignItemIn.otherItem :: rest) ns =
            .error (.convertErr .unknownForeignItem) := rfl
        rw [hstep] at h
        exact absurd h (by simp)
      | fnItem f =>
        have hstep : convert_foreign_mod_items (n + 1) s
            (ForeignItemIn.fnItem f :: rest) ns =
            (match convert_foreign_fn n s f ns with
             | .error e => .error e
             | .ok s3 => convert_foreign_mod_items n s3 rest ns) := rfl
        rw [hstep] at h
        cases hres : convert_foreign_fn n s f ns with
        | error err =>
          rw [hres] at h
          exact absurd h (by simp)
        | ok s3 =>
          rw [hres] at h
          dsimp only at h
          rw [ih s3 rest ns s2 h]
          exact convert_foreign_fn_allItems n s f ns s3 hres

theorem convert_new_method_allItems (s : ConvState) (m : ImplItemMethod)
    (ty : TypeNameM) (i : ItemImpl) :
    (convert_new_method s m ty i).1.allItems = s.allItems := by
  unfold convert_new_method
  split <;> simp [addUse]

theorem convert_impl_items_allItems (ty : TypeNameM) (i : ItemImpl) :
    ∀ (items : List ImplItem) (s : ConvState),
      (convert_impl_items s ty i items).1.allItems = s.allItems := by
  intro items
  induction items with
  | nil => intro s; rfl
  | cons it rest ih =>
    intro s
    cases it with
    | method m =>
      by_cases hname : m.name = "new"
      · unfold convert_impl_items
        rw [if_pos hname]
        dsimp only
        rw [ih]
        exact convert_new_method_allItems s m ty i
      · unfold convert_impl_items
        rw [if_neg hname]
        exact ih s
    | otherImplItem =>
      unfold convert_impl_items
      exact ih s

theorem convert_new_method_noConst (s : ConvState) (m : ImplItemMethod)
    (ty : TypeNameM) (i : ItemImpl) :
    itemsHaveConst (convert_new_method s m ty i).2 = false := by
  unfold convert_new_method
  split <;> rfl

theorem itemsHaveConst_append (a b : List ItemM) :
    itemsHaveConst (a ++ b) = (itemsHaveConst a || itemsHaveConst b) := by
  induction a with
  | nil => simp [itemsHaveConst]
  | cons i rest ih =>
    rw [List.cons_append, itemsHaveConst, itemsHaveConst, ih, Bool.or_assoc]

theorem convert_impl_items_noConst (ty : TypeNameM) (i : ItemImpl) :
    ∀ (items : List ImplItem) (s : ConvState),
      itemsHaveConst (convert_impl_items s ty i items).2 = false := by
  intro items
  induction items with
  | nil => intro s; rfl
  | cons it rest ih =>
    intro s
    cases it with
    | method m =>
      by_cases hname : m.name = "new"
      · unfold convert_impl_items
        rw [if_pos hname]
        dsimp only
        rw [itemsHaveConst_append, ih, convert_new_method_noConst]
        rfl
      · unfold convert_impl_items
        rw [if_neg hname]
        exact ih s
    | otherImplItem =>
      unfold convert_impl_items
      exact ih s

theorem generate_type_alias_allItems (s : ConvState) (tyname : TypeNameM)
    (pod : Bool) :
    (generate_type_alias s tyname pod).allItems =
      s.allItems ++ [.externTypeTop tyname pod] := by
  unfold generate_type_alias
  simp [addUse]

theorem c9_aux : ∀ fuel : Nat,
    (∀ (s : ConvState) (ns : NamespaceM) (items : List ItemM)
        (r : ConvState × List ItemM),
      convert_mod_items fuel s ns items = .ok r →
        (∀ x ∈ s.allItems, x ∈ r.1.allItems) ∧
        (∀ c ∈ itemsConsts items, TopItemM.constTop c ∈ r.1.allItems) ∧
        itemsHaveConst r.2 = false) ∧
    (∀ (s : ConvState) (ns : NamespaceM) (item : ItemM)
        (r : ConvState × List ItemM),
      convert_mod_item fuel s ns item = .ok r →
        (∀ x ∈ s.allItems, x ∈ r.1.allItems) ∧
        (∀ c ∈ itemConsts item, TopItemM.constTop c ∈ r.1.allItems) ∧
        itemsHaveConst r.2 = false) := by
  intro fuel
  induction fuel with
  | zero =>
    constructor
    · intro s ns items r h
      simp [convert_mod_items] at h
    · intro s ns item r h
      simp [convert_mod_item] at h
  | succ n ih =>
    obtain ⟨ihs, ihi⟩ := ih
    constructor
    · intro s ns items r h
      cases items with
      | nil =>
        have hstep : convert_mod_items (n + 1) s ns [] = .ok (s, []) := rfl
        rw [hstep] at h
        obtain rfl := Except.ok.inj h
        exact ⟨fun x hx => hx, by simp [itemsConsts], rfl⟩
      | cons item rest =>
        have hstep : convert_mod_items (n + 1) s ns (item :: rest) =
            (match convert_mod_item n s ns item with
             | .error e => .error e
             | .ok r1 =>
               match convert_mod_items n r1.1 ns rest with
               | .error e => .error e
               | .ok r2 => .ok (r2.1, r1.2 ++ r2.2)) := rfl
        rw [hstep] at h
        cases h1 : convert_mod_item n s ns item with
        | error e =>
          rw [h1] at h
          exact absurd h (by simp)
        | ok r1 =>
          rw [h1] at h
          dsimp only at h
          cases h2 : convert_mod_items n r1.1 ns rest with
          | error e =>
            rw [h2] at h
            exact absurd h (by simp)
          | ok r2 =>
            rw [h2] at h
            dsimp only at h
            obtain rfl := Except.ok.inj h
            obtain ⟨hi1, hi2, hi3⟩ := ihi s ns item r1 h1
            obtain ⟨hs1, hs2, hs3⟩ := ihs r1.1 ns rest r2 h2
            refine ⟨fun x hx => hs1 x (hi1 x hx), ?_, ?_⟩
            · intro c hc
              rw [itemsConsts] at hc
              rcases List.mem_append.mp hc with hcl | hcr
              · exact hs1 _ (hi2 c hcl)
              · exact hs2 c hcr
            · show itemsHaveConst (r1.2 ++ r2.2) = false
              rw [itemsHaveConst_append, hi3, hs3]
              rfl
    · intro s ns item r h
      cases item with
      | foreignMod fitems =>
        have hstep : convert_mod_item (n + 1) s ns (.foreignMod fitems) =
            (match convert_foreign_mod_items n
                (if s.externCModCaptured then s
                 else { s with externCModCaptured := true }) fitems ns with
             | .error e => .error e
             | .ok s2 => .ok (s2, [])) := rfl
        rw [hstep] at h
        cases h1 : convert_foreign_mod_items n
            (if s.externCModCaptured then s
             else { s with externCModCaptured := true }) fitems ns with
        | error e =>
          rw [h1] at h
          exact absurd h (by simp)
        | ok s2 =>
          rw [h1] at h
          dsimp only at h
          obtain rfl := Except.ok.inj h
          have hcap : (if s.externCModCaptured then s
              else { s with externCModCaptured := true }).allItems =
              s.allItems := by split <;> rfl
          have hall := cfmi_allItems n _ fitems ns s2 h1
          refine ⟨fun x hx => ?_, ?_, rfl⟩
          · show x ∈ s2.allItems
            rw [hall, hcap]
            exact hx
          · intro c hc
            simp [itemConsts] at hc
      | structI name fr =>
        have hstep : convert_mod_item (n + 1) s ns (.structI name fr) =
            .ok (generate_type_alias s ⟨ns, name⟩ (isPod s ⟨ns, name⟩),
                 [.structI name (not (isPod s ⟨ns, name⟩))]) := rfl
        rw [hstep] at h
        obtain rfl := Except.ok.inj h
        refine ⟨fun x hx => ?_, ?_, rfl⟩
        · show x ∈ (generate_type_alias s ⟨ns, name⟩ (isPod s ⟨ns, name⟩)).allItems
          rw [generate_type_alias_allItems]
          exact List.mem_append_left _ hx
        · intro c hc
          simp [itemConsts] at hc
      | enumI name =>
        have hstep : convert_mod_item (n + 1) s ns (.enumI name) =
            .ok (generate_type_alias s ⟨ns, name⟩ true, [.enumI name]) := rfl
        rw [hstep] at h
        obtain rfl := Except.ok.inj h
        refine ⟨fun x hx => ?_, ?_, rfl⟩
        · show x ∈ (generate_type_alias s ⟨ns, name⟩ true).allItems
          rw [generate_type_alias_allItems]
          exact List.mem_append_left _ hx
        · intro c hc
          simp [itemConsts] at hc
      | implI i =>
        have hstep : convert_mod_item (n + 1) s ns (.implI i) =
            (match type_to_typename i.selfTy with
             | some ty => .ok (convert_impl_items s ty i i.items)
             | none => .ok (s, [])) := rfl
        rw [hstep] at h
        cases htt : type_to_typename i.selfTy with
        | none =>
          rw [htt] at h
          dsimp only at h
          obtain rfl := Except.ok.inj h
          exact ⟨fun x hx => hx, by intro c hc; simp [itemConsts] at hc, rfl⟩
        | some ty =>
          rw [htt] at h
          dsimp only at h
          obtain rfl := Except.ok.inj h
          refine ⟨fun x hx => ?_, ?_, ?_⟩
          · show x ∈ (convert_impl_items s ty i i.items).1.allItems
            rw [convert_impl_items_allItems]
            exact hx
          · intro c hc
            simp [itemConsts] at hc
          · exact convert_impl_items_noConst ty i i.items s
      | modI name content =>
        cases content with
        | none =>
          have hstep : convert_mod_item (n + 1) s ns (.modI name none) =
              .ok (s, [.modI name none]) := rfl
          rw [hstep] at h
          obtain rfl := Except.ok.inj h
          exact ⟨fun x hx => hx, by intro c hc; simp [itemConsts] at hc, rfl⟩
        | some citems =>
          have hstep : convert_mod_item (n + 1) s ns (.modI name (some citems)) =
              (match convert_mod_items n s (ns ++ [name]) citems with
               | .error e => .error e
               | .ok r1 => .ok (r1.1, [.modI name (some r1.2)])) := rfl
          rw [hstep] at h
          cases h1 : convert_mod_items n s (ns ++ [name]) citems with
          | error e =>
            rw [h1] at h
            exact absurd h (by simp)
          | ok r1 =>
            rw [h1] at h
            dsimp only at h
            obtain rfl := Except.ok.inj h
            obtain ⟨ha, hb, hc⟩ := ihs s (ns ++ [name]) citems r1 h1
            refine ⟨ha, ?_, ?_⟩
            · intro c hcc
              have hcc2 : c ∈ itemsConsts citems := by
                simpa [itemConsts] using hcc
              exact hb c hcc2
            · show itemsHaveConst [.modI name (some r1.2)] = false
              simp [itemsHaveConst, itemHasConst, hc]
      | useI =>
        have hstep : convert_mod_item (n + 1) s ns .useI =
            .ok (s, [.useI]) := rfl
        rw [hstep] at h
        obtain rfl := Except.ok.inj h
        exact ⟨fun x hx => hx, by intro c hc; simp [itemConsts] at hc, rfl⟩
      | constI t =>
        have hstep : convert_mod_item (n + 1) s ns (.constI t) =
            .ok ({ s with allItems := s.allItems ++ [.constTop t] }, []) := rfl
        rw [hstep] at h
        obtain rfl := Except.ok.inj h
        refine ⟨fun x hx => List.mem_append_left _ hx, ?_, rfl⟩
        intro c hc
        have hct : c = t := by simpa [itemConsts] using hc
        subst hct
        exact List.mem_append_right _ (by simp)
      | typeI name hasGen ty2 =>
        cases hasGen with
        | true =>
          have hstep : convert_mod_item (n + 1) s ns (.typeI name true ty2) =
              .ok (s, []) := rfl
          rw [hstep] at h
          obtain rfl := Except.ok.inj h
          exact ⟨fun x hx => hx, by intro c hc; simp [itemConsts] at hc, rfl⟩
        | false =>
          have hstep : convert_mod_item (n + 1) s ns (.typeI name false ty2) =
              .ok ({ s with typedefs :=
                      (⟨ns, name⟩, analyze_typedef_target ty2) :: s.typedefs },
                   [.typeI name false ty2]) := rfl
          rw [hstep] at h
          obtain rfl := Except.ok.inj h
          exact ⟨fun x hx => hx, by intro c hc; simp [itemConsts] at hc, rfl⟩
      | otherI =>
        have hstep : convert_mod_item (n + 1) s ns .otherI = .ok (s, []) := rfl
        rw [hstep] at h
        obtain rfl := Except.ok.inj h
        exact ⟨fun x hx => hx, by intro c hc; simp [itemConsts] at hc, rfl⟩

/-- C9: whenever the namespace walk succeeds, every `const` item
encountered at any namespace depth ends up on the top-level
`all_items` accumulator, and no `const` item appears anywhere in the
mirrored output module tree. -/
theorem c9_consts_hoisted_to_top (fuel : Nat) (s : ConvState)
    (ns : NamespaceM) (items : List ItemM) (r : ConvState × List ItemM)
    (h : convert_mod_items fuel s ns items = .ok r) :
    (∀ c ∈ itemsConsts items, TopItemM.constTop c ∈ r.1.allItems) ∧
    itemsHaveConst r.2 = false :=
  ⟨((c9_aux fuel).1 s ns items r h).2.1, ((c9_aux fuel).1 s ns items r h).2.2⟩

/-- Input tree with a `const` inside a nested namespace module. -/
def c9WItems : List ItemM := [.modI "outer" (some [.constI "K", .useI])]

/-- Witness for C9: converting a module containing the nested const
`K` hoists it to the top-level accumulator and leaves no const in the
output module tree. -/
theorem c9_witness :
    ∃ r, convert_mod_items 5 emptyState [] c9WItems = .ok r ∧
      (∀ c ∈ itemsConsts c9WItems, TopItemM.constTop c ∈ r.1.allItems) ∧
      itemsHaveConst r.2 = false := by
  refine ⟨_, rfl, ?_⟩
  exact c9_consts_hoisted_to_top 5 emptyState [] c9WItems _ rfl
